import Mathlib

/-!
Verification development for the "creator" deployment orchestrator.

The repository is a small Node.js service (`server.js` plus the deployment
logic module) that accepts a deployment request, runs a sequence of external
provisioning steps (Humanitec identity + token, `flyctl` application
creation, secrets, image deploy) and streams progress events to a single
subscriber over server-sent events keyed by a deployment identifier.

This file is a shallow embedding of that code:
 - external effects (child processes, HTTP calls to Humanitec, filesystem
   writes) are parametrised by an environment (`DeployEnv`) that records the
   outcome each external call would have produced;
 - the orchestration run (`startDeployment`) is a pure function from the
   request, the deployment identifier and that environment to the ordered
   trace of published events, issued commands and filesystem operations;
 - the broadcast channel of `server.js` (`sendStatusUpdate` plus the
   `/status/:deploymentId` route) is a small transition system over the
   per-identifier client registry.

JavaScript strings are modelled by Lean `String` (the inputs exercised here
are ASCII, where `toLowerCase`/`trim`/`substring` agree with the Lean
character-level models used below).
-/

/-- A progress event as produced by `sendStatusUpdate` in `server.js`:
`JSON.stringify({ message, isError, isComplete, data })`, where `data` is the
optional structured payload (the app URL on the final success event). -/
structure Event where
  message : String
  isError : Bool
  isComplete : Bool
  data : Option String
deriving Repr, DecidableEq

/-- An event with default flags, as produced by `sendStatusUpdate(msg)`. -/
def info (m : String) : Event := ⟨m, false, false, none⟩

/-- An event produced by `sendStatusUpdate(msg, true)`. -/
def errEvent (m : String) : Event := ⟨m, true, false, none⟩

/-- An external command invocation: program name plus argument list. -/
structure Cmd where
  command : String
  args : List String
deriving Repr, DecidableEq

/-- A filesystem operation performed by the run, with its success flag:
the temporary `fly.toml` write and the `fs.unlink` in the `finally` block. -/
inductive FsOp where
  | write (path : String) (ok : Bool)
  | unlink (path : String) (ok : Bool)
deriving Repr, DecidableEq

/-- Result resolved by `runCommand` on a zero exit code:
`{ stdout: stdoutData, stderr: stderrData, exitCode: code }`. -/
structure CommandResult where
  stdout : String
  stderr : String
  exitCode : Int
deriving Repr, DecidableEq

/-- Outcome of attempting to spawn an external process: either the spawn
itself fails (the `error` event of `child_process.spawn`), or the process
runs, producing chunks on stdout and stderr and exiting with a code. -/
inductive ProcOutcome where
  | launchFailure (msg : String)
  | exited (stdoutChunks stderrChunks : List String) (code : Int)
deriving Repr, DecidableEq

/-- ASCII whitespace recognised by `String.prototype.trim` on the data this
program handles (the chunks are ASCII CLI output). -/
def isWsChar (c : Char) : Bool := c == ' ' || c == '\t' || c == '\n' || c == '\r'

/-- Model of JavaScript `chunk.toString().trim()`: strip leading and trailing
whitespace characters. -/
def trimChunk (s : String) : String :=
  String.mk (((s.data.dropWhile isWsChar).reverse.dropWhile isWsChar).reverse)

/-- The `data` handler attached to each stream in `runCommand`
(`deployment-logic` lines 27-44): trim the chunk; if the result is empty do
nothing, otherwise emit one tagged progress event and append the trimmed
line plus a newline to the accumulator. Returns `none` when the chunk is
dropped, otherwise the emitted event and the text appended to the
accumulated output. -/
def processChunk (tag : String) (chunk : String) : Option (Event × String) :=
  let line := trimChunk chunk
  if line = "" then none else some (info (tag ++ line), line ++ "\n")

/-- Fold `processChunk` over the successive chunks of one stream, collecting
the emitted events (in order) and the accumulated output string. -/
def chunkEvents (tag : String) : List String → List Event × String
  | [] => ([], "")
  | c :: rest =>
    let r := chunkEvents tag rest
    match processChunk tag c with
    | none => r
    | some (e, a) => (e :: r.1, a ++ r.2)

/-- `commandString` from `runCommand`: the program followed by the
space-joined arguments. -/
def cmdString (command : String) (args : List String) : String :=
  command ++ " " ++ String.intercalate " " args

/-- Model of `runCommand(command, args, deploymentId, sendStatusUpdate)`:
given the outcome the spawned process would have, produce the progress
events it sends (in order) and the promise result — `Except.error` for a
rejection, `Except.ok` for a resolution. The message strings are the exact
ones built by the source. -/
def runCommandModel (command : String) (args : List String) (out : ProcOutcome) :
    List Event × Except String CommandResult :=
  let cs := cmdString command args
  let execEv := info ("Executing: " ++ cs ++ "...")
  match out with
  | .launchFailure msg =>
    ([execEv, errEvent ("Spawn Error: " ++ msg)],
     .error ("Failed to start command \x22" ++ cs ++ "\x22: " ++ msg))
  | .exited outs errs code =>
    let o := chunkEvents "[stdout] " outs
    let e := chunkEvents "[stderr] " errs
    if code = 0 then
      (([execEv] ++ o.1 ++ e.1) ++ [info ("Command \x22" ++ cs ++ "\x22 completed successfully.")],
       .ok ⟨o.2, e.2, code⟩)
    else
      let emsg := "Command \x22" ++ cs ++ "\x22 failed with exit code " ++ toString code ++
        ". Stderr: " ++ (if e.2 = "" then "None" else e.2)
      (([execEv] ++ o.1 ++ e.1) ++ [errEvent emsg], .error emsg)

/-- `Math.floor(1000 + Math.random() * 9000)`: with `Math.random()` ranging
over `[0,1)`, the floor ranges over `1000..9999`; the nondeterminism is
parametrised by a natural number `k`, reduced modulo 9000. -/
def randomSuffix (k : Nat) : Nat := 1000 + k % 9000

/-- ASCII lowercasing of one character, as `toLowerCase` acts on the ASCII
range. -/
def lowerChar (c : Char) : Char :=
  if 'A' ≤ c ∧ c ≤ 'Z' then Char.ofNat (c.toNat + 32) else c

/-- `orgName.toLowerCase().replace(/[^a-z0-9-]/g, "-").substring(0, 40)`:
lowercase, map every character outside `[a-z0-9-]` to a hyphen, keep the
first 40 characters. -/
def sanitizeOrg (orgName : String) : String :=
  String.mk
    (((orgName.data.map lowerChar).map fun c =>
      if ('a' ≤ c ∧ c ≤ 'z') ∨ ('0' ≤ c ∧ c ≤ '9') ∨ c = '-' then c else '-').take 40)

/-- The derived Fly application name: sanitised organisation name, a hyphen,
and the random 4-digit suffix. -/
def uniqueAppName (orgName : String) (k : Nat) : String :=
  sanitizeOrg orgName ++ "-" ++ Nat.repr (randomSuffix k)

/-- Outcome of the Humanitec service-user creation block (the `fetch` to
`POST /orgs/{org}/users` plus the 409 lookup fallback), abstracted to the
cases the source distinguishes:
 - `created id`: the POST succeeded and the response parsed to `id`
   (`id = ""` models a response with no usable `id` field);
 - `conflictFound id`: the POST returned 409 and the follow-up lookup by
   name returned `id` (`id = ""` models an empty or id-less lookup result);
 - `conflictLookupFail status`: 409, then the lookup response was not ok;
 - `failed status body`: any other non-ok POST response. -/
inductive UserOutcome where
  | created (id : String)
  | conflictFound (id : String)
  | conflictLookupFail (status : Nat)
  | failed (status : Nat) (body : String)
deriving Repr, DecidableEq

/-- Outcome of the Humanitec token issuance block (`POST /users/{id}/tokens`):
issued (with the token text; `""` models an id-less/parse-failing response),
409 conflict (fatal by design), or any other non-ok response. -/
inductive TokenOutcome where
  | issued (token : String)
  | conflict
  | failed (status : Nat) (body : String)
deriving Repr, DecidableEq

/-- The environment of one orchestration run: the values of the environment
variables the source reads and the outcome every external call would have.
`secretsSet` gives the `flyctl secrets set` outcome per secret key;
`writeFileResult` is `some msg` when `fs.writeFile` would throw `msg`.
(The success of the final `fs.unlink` is a separate argument of
`startDeployment`, since only the `finally` block consults it.) -/
structure DeployEnv where
  adminToken : Option String
  flyRegion : Option String
  deployImage : Option String
  flyOrg : Option String
  randomK : Nat
  userOutcome : UserOutcome
  tokenOutcome : TokenOutcome
  appsCreate : ProcOutcome
  secretsSet : String → ProcOutcome
  writeFileResult : Option String
  deployOutcome : ProcOutcome
  destroyOutcome : ProcOutcome

/-- The caller-supplied form data: `{ orgName, geminiKey }`. -/
structure FormData where
  orgName : String
  geminiKey : String
deriving Repr, DecidableEq

/-- JavaScript `x || d` for an optionally-set environment variable: the
default is used when the variable is unset or empty. -/
def orDefault (v : Option String) (d : String) : String :=
  match v with
  | none => d
  | some s => if s = "" then d else s

/-- The Humanitec service-user step (source lines 115-193): events it sends
and either the resolved user id or the thrown error message (already wrapped
in `Humanitec user setup failed:` by the surrounding catch). -/
def humanitecUserStep (env : DeployEnv) (serviceUserName : String) :
    List Event × Except String String :=
  match env.userOutcome with
  | .created id =>
    if id = "" then
      ([], .error "Humanitec user setup failed: Failed to parse service user ID from Humanitec response.")
    else
      ([info ("Successfully created Humanitec service user. ID: " ++ id)], .ok id)
  | .conflictFound id =>
    let evs := [info ("Service user \x27" ++ serviceUserName ++ "\x27 already exists. Fetching ID...")]
    if id = "" then
      (evs, .error ("Humanitec user setup failed: Failed to find ID for existing service user \x27" ++ serviceUserName ++ "\x27."))
    else
      (evs ++ [info ("Found existing service user ID: " ++ id)], .ok id)
  | .conflictLookupFail status =>
    ([info ("Service user \x27" ++ serviceUserName ++ "\x27 already exists. Fetching ID...")],
     .error ("Humanitec user setup failed: Failed to find existing service user \x27" ++ serviceUserName ++ "\x27. Status: " ++ toString status))
  | .failed status body =>
    ([], .error ("Humanitec user setup failed: Failed to create Humanitec service user. Status: " ++ toString status ++ ", Body: " ++ body))

/-- The Humanitec token step (source lines 195-249): the initial progress
line is sent before the fetch, so it appears in every outcome. -/
def humanitecTokenStep (env : DeployEnv) (tokenId userId : String) :
    List Event × Except String String :=
  let pre := [info ("Generating API token for user ID: " ++ userId ++ "...")]
  match env.tokenOutcome with
  | .issued t =>
    if t = "" then
      (pre, .error "Humanitec token setup failed: Failed to parse generated token from Humanitec response.")
    else
      (pre ++ [info "Successfully generated Humanitec API token."], .ok t)
  | .conflict =>
    (pre, .error ("Humanitec token setup failed: Token with ID \x27" ++ tokenId ++ "\x27 already exists for user \x27" ++ userId ++ "\x27. Cannot retrieve existing static token. Please delete it manually in Humanitec if you want to proceed."))
  | .failed status body =>
    (pre, .error ("Humanitec token setup failed: Failed to generate Humanitec API token. Status: " ++ toString status ++ ", Body: " ++ body))

/-- The ordered secret map of source lines 272-282 (`Object.entries` yields
insertion order). -/
def secretsList (geminiKey newUserToken : String) : List (String × String) :=
  [("GOOGLE_API_KEY", geminiKey),
   ("HUMANITEC_TOKEN", newUserToken),
   ("DEFAULT_MODEL", "gemini-2.5-pro-preview-03-25"),
   ("ENABLE_MCP", "true"),
   ("MINIO_ACCESS_KEY_ID", "KNI6gzCN3ueRujNrzQj5"),
   ("MINIO_BUCKET", "canyon-render-bucket"),
   ("MINIO_ENDPOINT", "https://bucket-production-670c.up.railway.app:443"),
   ("MINIO_SECRET_ACCESS_KEY", "MGtkqapxCcbYS532RQVDUA9rdhPU6Ie7NT0LKgdj"),
   ("MINIO_USE_SSL", "true")]

/-- The secret-setting loop (source lines 284-300): skip empty values with a
note, otherwise run `flyctl secrets set -a <app> KEY=VALUE`; the first
failing command aborts the loop with its error. Returns the events, the
commands issued, and the error if one was thrown. -/
def setSecrets (env : DeployEnv) (appName : String) :
    List (String × String) → List Event × List Cmd × Option String
  | [] => ([], [], none)
  | (k, v) :: rest =>
    if v = "" then
      let r := setSecrets env appName rest
      (info ("Skipping secret " ++ k ++ " as value is empty.") :: r.1, r.2.1, r.2.2)
    else
      match runCommandModel "flyctl" ["secrets", "set", "-a", appName, k ++ "=" ++ v] (env.secretsSet k) with
      | (cEvs, .error m) =>
        (info ("Setting secret " ++ k ++ "...") :: cEvs,
         [⟨"flyctl", ["secrets", "set", "-a", appName, k ++ "=" ++ v]⟩], some m)
      | (cEvs, .ok _) =>
        let r := setSecrets env appName rest
        (info ("Setting secret " ++ k ++ "...") :: (cEvs ++ [info ("Secret " ++ k ++ " set.")] ++ r.1),
         ⟨"flyctl", ["secrets", "set", "-a", appName, k ++ "=" ++ v]⟩ :: r.2.1, r.2.2)

/-- The unique temporary descriptor path
`path.join(os.tmpdir(), `fly_${deploymentId}_${uniqueAppName}.toml`)`,
with the temp directory fixed to `/tmp`. -/
def tmpPath (did appName : String) : String :=
  "/tmp/fly_" ++ did ++ "_" ++ appName ++ ".toml"

/-- The final success event (source lines 361-367): message, flags
`isError=false, isComplete=true`, and the structured data payload carrying
the URL built from the derived name and the fixed base domain
`canyon-beta.com`. -/
def successEvent (appName : String) : Event :=
  { message := "Deployment successful! App should be available shortly at: https://" ++ appName ++ ".canyon-beta.com"
    isError := false
    isComplete := true
    data := some ("https://" ++ appName ++ ".canyon-beta.com") }

/-- Accumulated trace while the `try` block runs. -/
structure TryAcc where
  events : List Event
  cmds : List Cmd

/-- Result of the `try` block of `startDeployment`: the full trace, the
values of the two cleanup-bookkeeping locals (`uniqueAppName`,
`tempFlyTomlPath`), and the thrown error message if any. -/
structure TryOut where
  events : List Event
  cmds : List Cmd
  fsOps : List FsOp
  appName : String
  tomlPath : String
  err : Option String

/-- Image-deployment stage (source lines 331-370): run `flyctl deploy`; on
success emit the closing events including the final success event. -/
def stageDeploy (env : DeployEnv) (appName imageName tomlPath : String) (acc : TryAcc) : TryOut :=
  let evs := acc.events ++ [info ("Deploying image \x27" ++ imageName ++ "\x27 to Fly app \x27" ++ appName ++ "\x27...")]
  match runCommandModel "flyctl" ["deploy", "-a", appName, "-c", tomlPath, "--image", imageName, "--ha=false", "--detach"] env.deployOutcome with
  | (cEvs, .error m) =>
    ⟨evs ++ cEvs,
     acc.cmds ++ [⟨"flyctl", ["deploy", "-a", appName, "-c", tomlPath, "--image", imageName, "--ha=false", "--detach"]⟩],
     [.write tomlPath true], appName, tomlPath, some m⟩
  | (cEvs, .ok _) =>
    ⟨evs ++ cEvs ++ [info "Fly deployment command initiated.", successEvent appName],
     acc.cmds ++ [⟨"flyctl", ["deploy", "-a", appName, "-c", tomlPath, "--image", imageName, "--ha=false", "--detach"]⟩],
     [.write tomlPath true], appName, tomlPath, none⟩

/-- Configuration-materialisation stage (source lines 304-329): record the
temp path, announce the write, then perform it; a write failure throws. -/
def stageWrite (env : DeployEnv) (did appName imageName : String) (acc : TryAcc) : TryOut :=
  let tomlPath := tmpPath did appName
  let evs := acc.events ++ [info ("Writing temporary fly.toml to " ++ tomlPath ++ "...")]
  match env.writeFileResult with
  | some m => ⟨evs, acc.cmds, [.write tomlPath false], appName, tomlPath, some m⟩
  | none => stageDeploy env appName imageName tomlPath ⟨evs, acc.cmds⟩

/-- Secret-injection stage (source lines 269-302). -/
def stageSecrets (env : DeployEnv) (did appName imageName newUserToken geminiKey : String)
    (acc : TryAcc) : TryOut :=
  match setSecrets env appName (secretsList geminiKey newUserToken) with
  | (sEvs, sCmds, some m) =>
    ⟨acc.events ++ sEvs, acc.cmds ++ sCmds, [], appName, "", some m⟩
  | (sEvs, sCmds, none) =>
    stageWrite env did appName imageName
      ⟨acc.events ++ sEvs ++ [info "All secrets processed."], acc.cmds ++ sCmds⟩

/-- Application-creation stage (source lines 253-267):
`flyctl apps create <app> --org <org>`. -/
def stageCreate (env : DeployEnv) (did appName imageName flyRegion flyOrg newUserToken geminiKey : String)
    (acc : TryAcc) : TryOut :=
  let evs := acc.events ++ [info ("Creating Fly app \x27" ++ appName ++ "\x27 in region \x27" ++ flyRegion ++ "\x27...")]
  match runCommandModel "flyctl" ["apps", "create", appName, "--org", flyOrg] env.appsCreate with
  | (cEvs, .error m) =>
    ⟨evs ++ cEvs, acc.cmds ++ [⟨"flyctl", ["apps", "create", appName, "--org", flyOrg]⟩], [], appName, "", some m⟩
  | (cEvs, .ok _) =>
    stageSecrets env did appName imageName newUserToken geminiKey
      ⟨evs ++ cEvs ++ [info ("Fly app \x27" ++ appName ++ "\x27 created."),
        info "Setting secrets in Fly app (one by one)..."],
       acc.cmds ++ [⟨"flyctl", ["apps", "create", appName, "--org", flyOrg]⟩]⟩

/-- Token stage followed by the Fly configuration reads (source lines
195-257). -/
def stageToken (env : DeployEnv) (did appName userId geminiKey : String) (acc : TryAcc) : TryOut :=
  let tokenId := "canyon-chat-fly-token-" ++ appName
  match humanitecTokenStep env tokenId userId with
  | (tEvs, .error m) => ⟨acc.events ++ tEvs, acc.cmds, [], appName, "", some m⟩
  | (tEvs, .ok newUserToken) =>
    let flyRegion := orDefault env.flyRegion "ams"
    let imageName := orDefault env.deployImage "dominicwhitehumanitec/canyonchat:latest"
    let flyOrg := orDefault env.flyOrg "personal"
    stageCreate env did appName imageName flyRegion flyOrg newUserToken geminiKey
      ⟨acc.events ++ tEvs ++ [info "Humanitec setup complete."], acc.cmds⟩

/-- Service-user stage (source lines 102-193). -/
def stageUser (env : DeployEnv) (did appName geminiKey : String) (acc : TryAcc) : TryOut :=
  let serviceUserName := "canyon-chat-fly-" ++ appName
  let evs := acc.events ++ [info ("Creating/finding Humanitec service user: " ++ serviceUserName ++ "...")]
  match humanitecUserStep env serviceUserName with
  | (uEvs, .error m) => ⟨evs ++ uEvs, acc.cmds, [], appName, "", some m⟩
  | (uEvs, .ok userId) => stageToken env did appName userId geminiKey ⟨evs ++ uEvs, acc.cmds⟩

/-- The `try` block of `startDeployment` (source lines 76-370). The unique
app name is computed and recorded in the first step, before any fallible
call; the admin-token check is the first thing that can throw. -/
def tryBody (fd : FormData) (did : String) (env : DeployEnv) : TryOut :=
  let appName := uniqueAppName fd.orgName env.randomK
  let evs := [info "Generating unique application name...",
              info ("Generated Fly app name: " ++ appName),
              info "Setting up Humanitec service user and token..."]
  match env.adminToken with
  | none => ⟨evs, [], [], appName, "", some "Missing HUMANITEC_SERVICE_USER_API_TOKEN in environment variables."⟩
  | some _ => stageUser env did appName fd.geminiKey ⟨evs, []⟩

/-- The terminal event sent at the top of the catch block:
`sendStatusUpdate(`Deployment failed: ${error.message}`, true, true)`. -/
def terminalEvent (m : String) : Event := ⟨"Deployment failed: " ++ m, true, true, none⟩

/-- The compensating-cleanup block (source lines 377-399): announce the
attempt, run `flyctl apps destroy <app> --yes`, and report success or
failure of the cleanup itself (the latter with `isError=true` but without a
second completion flag). -/
def cleanupTrace (env : DeployEnv) (appName : String) : List Event × List Cmd :=
  let pre := [info ("Attempting to clean up failed deployment for app " ++ appName ++ "...")]
  match runCommandModel "flyctl" ["apps", "destroy", appName, "--yes"] env.destroyOutcome with
  | (cEvs, .ok _) =>
    (pre ++ cEvs ++ [info ("Cleaned up failed app " ++ appName ++ ".")],
     [⟨"flyctl", ["apps", "destroy", appName, "--yes"]⟩])
  | (cEvs, .error m) =>
    (pre ++ cEvs ++ [errEvent ("Failed to cleanup app " ++ appName ++ ": " ++ m)],
     [⟨"flyctl", ["apps", "destroy", appName, "--yes"]⟩])

/-- The full trace of one orchestration run. -/
structure RunOut where
  events : List Event
  cmds : List Cmd
  fsOps : List FsOp

/-- `startDeployment(formData, deploymentId, sendStatusUpdate)`: the `try`
block, then on a thrown error the terminal failure event followed — when
`uniqueAppName` is non-empty — by the compensating cleanup, and finally the
unconditional temp-file removal attempt. -/
def startDeployment (fd : FormData) (did : String) (env : DeployEnv) (unlinkOk : Bool) : RunOut :=
  let t := tryBody fd did env
  let ec :=
    match t.err with
    | none => (t.events, t.cmds)
    | some m =>
      if t.appName = "" then (t.events ++ [terminalEvent m], t.cmds)
      else
        let c := cleanupTrace env t.appName
        (t.events ++ [terminalEvent m] ++ c.1, t.cmds ++ c.2)
  let fs := if t.tomlPath = "" then t.fsOps else t.fsOps ++ [.unlink t.tomlPath unlinkOk]
  ⟨ec.1, ec.2, fs⟩

/-- The greeting written directly by the `/status/:deploymentId` handler when
a client connects (before any orchestration event). -/
def initialEvent : Event := ⟨"Connected to status updates.", false, false, none⟩

/-- Response of the `GET /status/:deploymentId` handler for one identifier:
HTTP status, the registry entry for that identifier afterwards (the client
name registered as the SSE subscriber), and the events written to the new
connection immediately. -/
structure StatusResp where
  status : Nat
  registered : Option String
  sent : List Event
deriving Repr, DecidableEq

/-- `app.get("/status/:deploymentId")` (server.js lines 110-141): reject only
an empty identifier; otherwise unconditionally overwrite the registry entry
with the new client and write the greeting. The handler consults no record
of orchestrations: any identifier is accepted. -/
def statusEndpoint (deploymentId : String) (reg : Option String) (client : String) : StatusResp :=
  if deploymentId = "" then ⟨400, reg, []⟩
  else ⟨200, some client, [initialEvent]⟩

/-- JavaScript truthiness of an optional string form field
(`!formData.orgName`): false when the field is missing or the empty string. -/
def truthyField (v : Option String) : Bool :=
  match v with
  | none => false
  | some s => s ≠ ""

/-- The body of a `POST /deploy` request; either field may be absent. -/
structure DeployBody where
  orgName : Option String
  geminiKey : Option String
deriving Repr, DecidableEq

/-- Response of the `POST /deploy` handler: HTTP status, whether
`startDeployment` was launched, and the (unchanged) registry — the handler
never registers a subscriber; registration happens only in the status
endpoint. -/
structure DeployResp where
  status : Nat
  started : Bool
  registered : Option String
deriving Repr, DecidableEq

/-- `app.post("/deploy")` (server.js lines 54-107): validate with JavaScript
truthiness (`!formData.orgName || !formData.geminiKey`), answer 400 without
starting anything when it fails, otherwise mint an identifier, start the
orchestration asynchronously and answer 202. -/
def deployEndpoint (b : DeployBody) (reg : Option String) : DeployResp :=
  if !(truthyField b.orgName) || !(truthyField b.geminiKey) then ⟨400, false, reg⟩
  else ⟨202, true, reg⟩

/-- One interaction with the broadcast channel for a fixed identifier:
a client connects to `/status/:id`, the connected client drops, or the
orchestration publishes an event through `sendStatusUpdate`. -/
inductive ChannelOp where
  | connect
  | disconnect
  | publish (e : Event)
deriving Repr, DecidableEq

/-- Events delivered to subscribers of one identifier, starting from
registration state `connected`, as the operations play out:
`sendStatusUpdate` writes the event only while a client is registered and
deletes the registration right after delivering an `isComplete` event
(server.js lines 29-48); connecting (re-)registers and receives the
greeting; disconnecting removes the registration. -/
def deliverFrom (connected : Bool) : List ChannelOp → List Event
  | [] => []
  | op :: rest =>
    match op with
    | .connect => initialEvent :: deliverFrom true rest
    | .disconnect => deliverFrom false rest
    | .publish e =>
      if connected then e :: deliverFrom (!e.isComplete) rest
      else deliverFrom connected rest

/-- Delivered events with no client registered initially. -/
def deliveredList (ops : List ChannelOp) : List Event := deliverFrom false ops

/-- The sequence of events published through the channel by an operation
list (the orchestration's side of the interaction). -/
def publishTrace : List ChannelOp → List Event
  | [] => []
  | .publish e :: rest => e :: publishTrace rest
  | _ :: rest => publishTrace rest

/-- An event that neither completes the stream nor carries a payload: every
event of the run other than the final success event and the terminal
failure event is of this shape. -/
def plainEvent (e : Event) : Bool := !e.isComplete && e.data == none

/-- Recogniser for an application-destroy command
(`flyctl apps destroy ... --yes`). -/
def isDestroyCmd (c : Cmd) : Bool := c.command == "flyctl" && c.args.take 2 == ["apps", "destroy"]

/-- Recogniser for an application-create command (`flyctl apps create ...`). -/
def isCreateCmd (c : Cmd) : Bool := c.command == "flyctl" && c.args.take 2 == ["apps", "create"]

theorem plainEvent_info (m : String) : plainEvent (info m) = true := rfl

theorem plainEvent_errEvent (m : String) : plainEvent (errEvent m) = true := rfl

theorem processChunk_shape (tag c : String) (e : Event) (a : String)
    (h : processChunk tag c = some (e, a)) :
    e = info (tag ++ trimChunk c) ∧ a = trimChunk c ++ "\n" := by
  simp only [processChunk] at h
  split at h
  · exact absurd h (by simp)
  · have h2 := Option.some.inj h
    exact ⟨(congrArg Prod.fst h2).symm, (congrArg Prod.snd h2).symm⟩

theorem chunkEvents_plain (tag : String) (l : List String) :
    ((chunkEvents tag l).1).all plainEvent = true := by
  induction l with
  | nil => rfl
  | cons c rest ih =>
    simp only [chunkEvents]
    cases h : processChunk tag c with
    | none => exact ih
    | some p =>
      rcases p with ⟨e, a⟩
      have he := (processChunk_shape tag c e a h).1
      simp only [List.all_cons, Bool.and_eq_true]
      exact ⟨he ▸ plainEvent_info _, ih⟩

theorem runCommandModel_plain (c : String) (a : List String) (o : ProcOutcome) :
    ((runCommandModel c a o).1).all plainEvent = true := by
  cases o with
  | launchFailure m => rfl
  | exited outs errs code =>
    simp only [runCommandModel]
    split <;>
      simp [List.all_append, chunkEvents_plain, plainEvent_info, plainEvent_errEvent]

theorem setSecrets_plain (env : DeployEnv) (appName : String) (l : List (String × String)) :
    ((setSecrets env appName l).1).all plainEvent = true := by
  induction l with
  | nil => rfl
  | cons kv rest ih =>
    rcases kv with ⟨k, v⟩
    simp only [setSecrets]
    split
    · simpa [plainEvent_info] using ih
    · rcases hrc : runCommandModel "flyctl" ["secrets", "set", "-a", appName, k ++ "=" ++ v] (env.secretsSet k) with ⟨cEvs, res⟩
      have hplain := runCommandModel_plain "flyctl" ["secrets", "set", "-a", appName, k ++ "=" ++ v] (env.secretsSet k)
      rw [hrc] at hplain
      cases res with
      | error m => simpa [plainEvent_info] using hplain
      | ok r =>
        simp only [List.all_cons, List.all_append, Bool.and_eq_true, plainEvent_info, true_and]
        exact ⟨by simpa using hplain, by simpa [plainEvent_info] using ih⟩

theorem isDestroyCmd_secrets (appName kv : String) :
    isDestroyCmd ⟨"flyctl", ["secrets", "set", "-a", appName, kv]⟩ = false := rfl

theorem isDestroyCmd_create (appName flyOrg : String) :
    isDestroyCmd ⟨"flyctl", ["apps", "create", appName, "--org", flyOrg]⟩ = false := rfl

theorem isDestroyCmd_deploy (appName tomlPath imageName : String) :
    isDestroyCmd ⟨"flyctl", ["deploy", "-a", appName, "-c", tomlPath, "--image", imageName, "--ha=false", "--detach"]⟩ = false := rfl

theorem isDestroyCmd_destroy (appName : String) :
    isDestroyCmd ⟨"flyctl", ["apps", "destroy", appName, "--yes"]⟩ = true := rfl

theorem setSecrets_no_destroy (env : DeployEnv) (appName : String) (l : List (String × String)) :
    ((setSecrets env appName l).2.1).countP (fun c => isDestroyCmd c) = 0 := by
  induction l with
  | nil => rfl
  | cons kv rest ih =>
    rcases kv with ⟨k, v⟩
    simp only [setSecrets]
    split
    · exact ih
    · rcases hrc : runCommandModel "flyctl" ["secrets", "set", "-a", appName, k ++ "=" ++ v] (env.secretsSet k) with ⟨cEvs, res⟩
      cases res with
      | error m =>
        simp only [List.countP_cons, List.countP_nil, isDestroyCmd_secrets]
        simp
      | ok r =>
        simp only [List.countP_cons, isDestroyCmd_secrets, ih]
        simp

theorem humanitecUserStep_plain (env : DeployEnv) (s : String) :
    ((humanitecUserStep env s).1).all plainEvent = true := by
  rcases hu : env.userOutcome with id | id | st | ⟨st, body⟩
  · simp only [humanitecUserStep, hu]
    split <;> simp [plainEvent_info]
  · simp only [humanitecUserStep, hu]
    split <;> simp [plainEvent_info]
  · simp [humanitecUserStep, hu, plainEvent_info]
  · simp [humanitecUserStep, hu, plainEvent_info]

theorem humanitecTokenStep_plain (env : DeployEnv) (tokenId userId : String) :
    ((humanitecTokenStep env tokenId userId).1).all plainEvent = true := by
  rcases ht : env.tokenOutcome with t | _ | ⟨st, body⟩
  · simp only [humanitecTokenStep, ht]
    split <;> simp [plainEvent_info]
  · simp [humanitecTokenStep, ht, plainEvent_info]
  · simp [humanitecTokenStep, ht, plainEvent_info]

theorem cleanupTrace_plain (env : DeployEnv) (appName : String) :
    ((cleanupTrace env appName).1).all plainEvent = true := by
  rcases hrc : runCommandModel "flyctl" ["apps", "destroy", appName, "--yes"] env.destroyOutcome with ⟨cEvs, res⟩
  have hplain := runCommandModel_plain "flyctl" ["apps", "destroy", appName, "--yes"] env.destroyOutcome
  rw [hrc] at hplain
  cases res with
  | error m =>
    simp only [cleanupTrace, hrc]
    simp [List.all_append, plainEvent_info, plainEvent_errEvent, hplain]
  | ok r =>
    simp only [cleanupTrace, hrc]
    simp [List.all_append, plainEvent_info, hplain]

theorem cleanupTrace_cmds (env : DeployEnv) (appName : String) :
    (cleanupTrace env appName).2 = [⟨"flyctl", ["apps", "destroy", appName, "--yes"]⟩] := by
  rcases hrc : runCommandModel "flyctl" ["apps", "destroy", appName, "--yes"] env.destroyOutcome with ⟨cEvs, res⟩
  cases res <;> simp [cleanupTrace, hrc]

/-- The specification every `try`-block stage satisfies, relative to the
trace accumulated so far: the app name is threaded through unchanged; on a
thrown error the events extend the accumulator by completion-free,
payload-free events only; on success they additionally end in the final
success event; no stage issues a destroy command; and the filesystem trace
is empty until the temp file's path is recorded, after which it is exactly
the one write. -/
def TrySpec (acc : TryAcc) (appName : String) (t : TryOut) : Prop :=
  t.appName = appName ∧
  (t.err.isSome → ∃ ds, t.events = acc.events ++ ds ∧ ds.all plainEvent = true) ∧
  (t.err = none → ∃ ds, t.events = acc.events ++ (ds ++ [successEvent appName]) ∧ ds.all plainEvent = true) ∧
  (∃ dc, t.cmds = acc.cmds ++ dc ∧ dc.countP (fun c => isDestroyCmd c) = 0) ∧
  ((t.tomlPath = "" ∧ t.fsOps = []) ∨ (t.tomlPath ≠ "" ∧ ∃ b, t.fsOps = [FsOp.write t.tomlPath b]))

theorem TrySpec_extendE (acc : TryAcc) (X : List Event) (appName : String) (t : TryOut)
    (hX : X.all plainEvent = true)
    (h : TrySpec ⟨acc.events ++ X, acc.cmds⟩ appName t) :
    TrySpec acc appName t := by
  obtain ⟨h1, h2, h3, h4, h5⟩ := h
  refine ⟨h1, ?_, ?_, h4, h5⟩
  · intro hs
    obtain ⟨ds, hds, hp⟩ := h2 hs
    exact ⟨X ++ ds, by simpa [List.append_assoc] using hds, by simp [List.all_append, hX, hp]⟩
  · intro hn
    obtain ⟨ds, hds, hp⟩ := h3 hn
    refine ⟨X ++ ds, ?_, by simp [List.all_append, hX, hp]⟩
    simpa [List.append_assoc] using hds

theorem TrySpec_extendEC (acc : TryAcc) (X : List Event) (Y : List Cmd) (appName : String) (t : TryOut)
    (hX : X.all plainEvent = true) (hY : Y.countP (fun c => isDestroyCmd c) = 0)
    (h : TrySpec ⟨acc.events ++ X, acc.cmds ++ Y⟩ appName t) :
    TrySpec acc appName t := by
  obtain ⟨h1, h2, h3, h4, h5⟩ := h
  refine ⟨h1, ?_, ?_, ?_, h5⟩
  · intro hs
    obtain ⟨ds, hds, hp⟩ := h2 hs
    exact ⟨X ++ ds, by simpa [List.append_assoc] using hds, by simp [List.all_append, hX, hp]⟩
  · intro hn
    obtain ⟨ds, hds, hp⟩ := h3 hn
    refine ⟨X ++ ds, ?_, by simp [List.all_append, hX, hp]⟩
    simpa [List.append_assoc] using hds
  · obtain ⟨dc, hdc, hc⟩ := h4
    exact ⟨Y ++ dc, by simpa [List.append_assoc] using hdc, by simp [List.countP_append, hY, hc]⟩

theorem tmpPath_ne_empty (did appName : String) : tmpPath did appName ≠ "" := by
  intro h
  have hl := congrArg String.length h
  simp only [tmpPath, String.length_append] at hl
  have h9 : ("/tmp/fly_" : String).length = 9 := rfl
  have h5 : (".toml" : String).length = 5 := rfl
  have h0 : ("" : String).length = 0 := rfl
  rw [h9, h5, h0] at hl
  omega

theorem uniqueAppName_ne_empty (orgName : String) (k : Nat) : uniqueAppName orgName k ≠ "" := by
  intro h
  have hl := congrArg String.length h
  simp only [uniqueAppName, String.length_append] at hl
  have h1 : ("-" : String).length = 1 := rfl
  have h0 : ("" : String).length = 0 := rfl
  rw [h1, h0] at hl
  omega

theorem TrySpec_mk (acc : TryAcc) (appName : String) (e : List Event) (c : List Cmd)
    (fs : List FsOp) (tp : String) (er : Option String)
    (X : List Event) (Y : List Cmd)
    (he : e = acc.events ++ X) (hX : X.all plainEvent = true)
    (hc : c = acc.cmds ++ Y) (hY : Y.countP (fun cc => isDestroyCmd cc) = 0)
    (hm : er.isSome = true)
    (hfs : (tp = "" ∧ fs = []) ∨ (tp ≠ "" ∧ ∃ b, fs = [FsOp.write tp b])) :
    TrySpec acc appName ⟨e, c, fs, appName, tp, er⟩ := by
  refine ⟨rfl, fun _ => ⟨X, he, hX⟩, ?_, ⟨Y, hc, hY⟩, hfs⟩
  intro hn
  have : er = none := hn
  rw [this] at hm
  exact absurd hm (by simp)

theorem TrySpec_okLeaf (acc : TryAcc) (appName : String) (e : List Event) (c : List Cmd)
    (fs : List FsOp) (tp : String)
    (X : List Event) (Y : List Cmd)
    (he : e = acc.events ++ (X ++ [successEvent appName])) (hX : X.all plainEvent = true)
    (hc : c = acc.cmds ++ Y) (hY : Y.countP (fun cc => isDestroyCmd cc) = 0)
    (hfs : (tp = "" ∧ fs = []) ∨ (tp ≠ "" ∧ ∃ b, fs = [FsOp.write tp b])) :
    TrySpec acc appName ⟨e, c, fs, appName, tp, none⟩ := by
  refine ⟨rfl, ?_, fun _ => ⟨X, he, hX⟩, ⟨Y, hc, hY⟩, hfs⟩
  intro hs
  exact absurd hs (by simp)

theorem stageDeploy_spec (env : DeployEnv) (appName imageName tomlPath : String) (acc : TryAcc)
    (hp : tomlPath ≠ "") :
    TrySpec acc appName (stageDeploy env appName imageName tomlPath acc) := by
  rcases hrc : runCommandModel "flyctl" ["deploy", "-a", appName, "-c", tomlPath, "--image", imageName, "--ha=false", "--detach"] env.deployOutcome with ⟨cEvs, res⟩
  have hplain := runCommandModel_plain "flyctl" ["deploy", "-a", appName, "-c", tomlPath, "--image", imageName, "--ha=false", "--detach"] env.deployOutcome
  rw [hrc] at hplain
  simp only at hplain
  cases res with
  | error m =>
    simp only [stageDeploy, hrc]
    exact TrySpec_mk acc appName _ _ _ _ _
      ([info ("Deploying image \x27" ++ imageName ++ "\x27 to Fly app \x27" ++ appName ++ "\x27...")] ++ cEvs)
      [⟨"flyctl", ["deploy", "-a", appName, "-c", tomlPath, "--image", imageName, "--ha=false", "--detach"]⟩]
      (by simp) (by simp [List.all_append, plainEvent_info, hplain])
      rfl (by simp [List.countP_cons, isDestroyCmd_deploy])
      rfl (Or.inr ⟨hp, true, rfl⟩)
  | ok r =>
    simp only [stageDeploy, hrc]
    exact TrySpec_okLeaf acc appName _ _ _ _
      ([info ("Deploying image \x27" ++ imageName ++ "\x27 to Fly app \x27" ++ appName ++ "\x27...")] ++ cEvs ++ [info "Fly deployment command initiated."])
      [⟨"flyctl", ["deploy", "-a", appName, "-c", tomlPath, "--image", imageName, "--ha=false", "--detach"]⟩]
      (by simp) (by simp [List.all_append, plainEvent_info, hplain])
      rfl (by simp [List.countP_cons, isDestroyCmd_deploy])
      (Or.inr ⟨hp, true, rfl⟩)

theorem stageWrite_spec (env : DeployEnv) (did appName imageName : String) (acc : TryAcc) :
    TrySpec acc appName (stageWrite env did appName imageName acc) := by
  cases hw : env.writeFileResult with
  | some m =>
    simp only [stageWrite, hw]
    exact TrySpec_mk acc appName _ _ _ _ _
      [info ("Writing temporary fly.toml to " ++ tmpPath did appName ++ "...")] []
      (by simp) (by simp [plainEvent_info])
      (by simp) rfl
      rfl (Or.inr ⟨tmpPath_ne_empty did appName, false, rfl⟩)
  | none =>
    simp only [stageWrite, hw]
    exact TrySpec_extendE acc
      [info ("Writing temporary fly.toml to " ++ tmpPath did appName ++ "...")] appName _
      (by simp [plainEvent_info])
      (stageDeploy_spec env appName imageName (tmpPath did appName)
        ⟨acc.events ++ [info ("Writing temporary fly.toml to " ++ tmpPath did appName ++ "...")], acc.cmds⟩
        (tmpPath_ne_empty did appName))

theorem stageSecrets_spec (env : DeployEnv) (did appName imageName newUserToken geminiKey : String)
    (acc : TryAcc) :
    TrySpec acc appName (stageSecrets env did appName imageName newUserToken geminiKey acc) := by
  rcases hs : setSecrets env appName (secretsList geminiKey newUserToken) with ⟨sEvs, sCmds, sErr⟩
  have hplain := setSecrets_plain env appName (secretsList geminiKey newUserToken)
  have hnd := setSecrets_no_destroy env appName (secretsList geminiKey newUserToken)
  rw [hs] at hplain hnd
  simp only at hplain hnd
  cases sErr with
  | some m =>
    simp only [stageSecrets, hs]
    exact TrySpec_mk acc appName _ _ _ _ _ sEvs sCmds
      rfl hplain rfl hnd rfl (Or.inl ⟨rfl, rfl⟩)
  | none =>
    simp only [stageSecrets, hs]
    refine TrySpec_extendEC acc (sEvs ++ [info "All secrets processed."]) sCmds appName _
      (by simp [List.all_append, hplain, plainEvent_info]) hnd ?_
    have h := stageWrite_spec env did appName imageName
      ⟨acc.events ++ sEvs ++ [info "All secrets processed."], acc.cmds ++ sCmds⟩
    exact (by simpa [List.append_assoc] using h)

theorem stageCreate_spec (env : DeployEnv)
    (did appName imageName flyRegion flyOrg newUserToken geminiKey : String) (acc : TryAcc) :
    TrySpec acc appName (stageCreate env did appName imageName flyRegion flyOrg newUserToken geminiKey acc) := by
  rcases hrc : runCommandModel "flyctl" ["apps", "create", appName, "--org", flyOrg] env.appsCreate with ⟨cEvs, res⟩
  have hplain := runCommandModel_plain "flyctl" ["apps", "create", appName, "--org", flyOrg] env.appsCreate
  rw [hrc] at hplain
  simp only at hplain
  cases res with
  | error m =>
    simp only [stageCreate, hrc]
    exact TrySpec_mk acc appName _ _ _ _ _
      ([info ("Creating Fly app \x27" ++ appName ++ "\x27 in region \x27" ++ flyRegion ++ "\x27...")] ++ cEvs)
      [⟨"flyctl", ["apps", "create", appName, "--org", flyOrg]⟩]
      (by simp) (by simp [List.all_append, plainEvent_info, hplain])
      rfl (by simp [List.countP_cons, isDestroyCmd_create])
      rfl (Or.inl ⟨rfl, rfl⟩)
  | ok r =>
    simp only [stageCreate, hrc]
    refine TrySpec_extendEC acc
      ([info ("Creating Fly app \x27" ++ appName ++ "\x27 in region \x27" ++ flyRegion ++ "\x27...")] ++ cEvs ++
        [info ("Fly app \x27" ++ appName ++ "\x27 created."), info "Setting secrets in Fly app (one by one)..."])
      [⟨"flyctl", ["apps", "create", appName, "--org", flyOrg]⟩] appName _
      (by simp [List.all_append, plainEvent_info, hplain])
      (by simp [List.countP_cons, isDestroyCmd_create]) ?_
    have h := stageSecrets_spec env did appName imageName newUserToken geminiKey
      ⟨(acc.events ++ [info ("Creating Fly app \x27" ++ appName ++ "\x27 in region \x27" ++ flyRegion ++ "\x27...")]) ++ cEvs ++
        [info ("Fly app \x27" ++ appName ++ "\x27 created."), info "Setting secrets in Fly app (one by one)..."],
       acc.cmds ++ [⟨"flyctl", ["apps", "create", appName, "--org", flyOrg]⟩]⟩
    exact (by simpa [List.append_assoc] using h)

theorem stageToken_spec (env : DeployEnv) (did appName userId geminiKey : String) (acc : TryAcc) :
    TrySpec acc appName (stageToken env did appName userId geminiKey acc) := by
  rcases ht : humanitecTokenStep env ("canyon-chat-fly-token-" ++ appName) userId with ⟨tEvs, tRes⟩
  have hplain := humanitecTokenStep_plain env ("canyon-chat-fly-token-" ++ appName) userId
  rw [ht] at hplain
  simp only at hplain
  cases tRes with
  | error m =>
    simp only [stageToken, ht]
    exact TrySpec_mk acc appName _ _ _ _ _ tEvs []
      rfl hplain (by simp) rfl rfl (Or.inl ⟨rfl, rfl⟩)
  | ok newUserToken =>
    simp only [stageToken, ht]
    refine TrySpec_extendE acc (tEvs ++ [info "Humanitec setup complete."]) appName _
      (by simp [List.all_append, hplain, plainEvent_info]) ?_
    have h := stageCreate_spec env did appName
      (orDefault env.deployImage "dominicwhitehumanitec/canyonchat:latest")
      (orDefault env.flyRegion "ams") (orDefault env.flyOrg "personal") newUserToken geminiKey
      ⟨acc.events ++ tEvs ++ [info "Humanitec setup complete."], acc.cmds⟩
    exact (by simpa [List.append_assoc] using h)

theorem stageUser_spec (env : DeployEnv) (did appName geminiKey : String) (acc : TryAcc) :
    TrySpec acc appName (stageUser env did appName geminiKey acc) := by
  rcases hu : humanitecUserStep env ("canyon-chat-fly-" ++ appName) with ⟨uEvs, uRes⟩
  have hplain := humanitecUserStep_plain env ("canyon-chat-fly-" ++ appName)
  rw [hu] at hplain
  simp only at hplain
  cases uRes with
  | error m =>
    simp only [stageUser, hu]
    exact TrySpec_mk acc appName _ _ _ _ _
      ([info ("Creating/finding Humanitec service user: " ++ ("canyon-chat-fly-" ++ appName) ++ "...")] ++ uEvs) []
      (by simp) (by simp [List.all_append, plainEvent_info, hplain])
      (by simp) rfl rfl (Or.inl ⟨rfl, rfl⟩)
  | ok userId =>
    simp only [stageUser, hu]
    refine TrySpec_extendE acc
      ([info ("Creating/finding Humanitec service user: " ++ ("canyon-chat-fly-" ++ appName) ++ "...")] ++ uEvs)
      appName _ (by simp [List.all_append, plainEvent_info, hplain]) ?_
    have h := stageToken_spec env did appName userId geminiKey
      ⟨acc.events ++ [info ("Creating/finding Humanitec service user: " ++ ("canyon-chat-fly-" ++ appName) ++ "...")] ++ uEvs, acc.cmds⟩
    exact (by simpa [List.append_assoc] using h)

/-- Master structural facts about the `try` block: the recorded app name is
always the derived name (recorded before any fallible step); on a thrown
error every event is completion-free and payload-free; on success the events
end in exactly the final success event, all earlier ones plain; the `try`
block never issues a destroy command; and its filesystem trace is the single
temp-file write exactly when the temp path was recorded. -/
theorem tryBody_master (fd : FormData) (did : String) (env : DeployEnv) :
    (tryBody fd did env).appName = uniqueAppName fd.orgName env.randomK ∧
    ((tryBody fd did env).err.isSome = true → (tryBody fd did env).events.all plainEvent = true) ∧
    ((tryBody fd did env).err = none →
      ∃ ds, (tryBody fd did env).events = ds ++ [successEvent (uniqueAppName fd.orgName env.randomK)] ∧
        ds.all plainEvent = true) ∧
    (tryBody fd did env).cmds.countP (fun c => isDestroyCmd c) = 0 ∧
    (((tryBody fd did env).tomlPath = "" ∧ (tryBody fd did env).fsOps = []) ∨
     ((tryBody fd did env).tomlPath ≠ "" ∧
      ∃ b, (tryBody fd did env).fsOps = [FsOp.write (tryBody fd did env).tomlPath b])) := by
  cases ha : env.adminToken with
  | none =>
    simp only [tryBody, ha]
    refine ⟨by trivial, fun _ => ?_, fun h => absurd h (by simp), by trivial,
      Or.inl ⟨by trivial, by trivial⟩⟩
    simp [plainEvent_info]
  | some tok =>
    simp only [tryBody, ha]
    have h := stageUser_spec env did (uniqueAppName fd.orgName env.randomK) fd.geminiKey
      ⟨[info "Generating unique application name...",
        info ("Generated Fly app name: " ++ uniqueAppName fd.orgName env.randomK),
        info "Setting up Humanitec service user and token..."], []⟩
    obtain ⟨h1, h2, h3, h4, h5⟩ := h
    refine ⟨h1, ?_, ?_, ?_, h5⟩
    · intro hs
      obtain ⟨ds, hds, hp⟩ := h2 hs
      rw [hds]
      simp [List.all_append, plainEvent_info, hp]
    · intro hn
      obtain ⟨ds, hds, hp⟩ := h3 hn
      refine ⟨[info "Generating unique application name...",
        info ("Generated Fly app name: " ++ uniqueAppName fd.orgName env.randomK),
        info "Setting up Humanitec service user and token..."] ++ ds, ?_, ?_⟩
      · rw [hds]
        simp [List.append_assoc]
      · simp [List.all_append, plainEvent_info, hp]
    · obtain ⟨dc, hdc, hc⟩ := h4
      rw [hdc]
      simpa using hc

theorem startDeployment_err_shape (fd : FormData) (did : String) (env : DeployEnv) (u : Bool) (m : String)
    (hm : (tryBody fd did env).err = some m) :
    (startDeployment fd did env u).events =
      (tryBody fd did env).events ++ [terminalEvent m] ++ (cleanupTrace env (tryBody fd did env).appName).1 ∧
    (startDeployment fd did env u).cmds =
      (tryBody fd did env).cmds ++ [⟨"flyctl", ["apps", "destroy", (tryBody fd did env).appName, "--yes"]⟩] := by
  have hne : (tryBody fd did env).appName ≠ "" := by
    rw [(tryBody_master fd did env).1]
    exact uniqueAppName_ne_empty _ _
  simp only [startDeployment, hm]
  rw [if_neg hne]
  exact ⟨by trivial, by rw [cleanupTrace_cmds]⟩

theorem startDeployment_ok_shape (fd : FormData) (did : String) (env : DeployEnv) (u : Bool)
    (hm : (tryBody fd did env).err = none) :
    (startDeployment fd did env u).events = (tryBody fd did env).events ∧
    (startDeployment fd did env u).cmds = (tryBody fd did env).cmds := by
  simp only [startDeployment, hm]
  exact ⟨by trivial, by trivial⟩

theorem countP_complete_eq_zero_of_plain (l : List Event) (h : l.all plainEvent = true) :
    l.countP (fun e => e.isComplete) = 0 := by
  rw [List.countP_eq_zero]
  intro e he
  have hp := List.all_eq_true.mp h e he
  simp only [plainEvent, Bool.and_eq_true, Bool.not_eq_true'] at hp
  simp [hp.1]

/-- Every orchestration run publishes exactly one `isComplete=true` event:
the final success event on the success path, the terminal failure event on
the error path (cleanup events never carry the completion flag). -/
theorem startDeployment_one_complete (fd : FormData) (did : String) (env : DeployEnv) (u : Bool) :
    ((startDeployment fd did env u).events).countP (fun e => e.isComplete) = 1 := by
  obtain ⟨h1, h2, h3, h4, h5⟩ := tryBody_master fd did env
  cases hm : (tryBody fd did env).err with
  | none =>
    obtain ⟨hev, _⟩ := startDeployment_ok_shape fd did env u hm
    obtain ⟨ds, hds, hp⟩ := h3 hm
    rw [hev, hds]
    simp [List.countP_append, countP_complete_eq_zero_of_plain ds hp, List.countP_cons, successEvent]
  | some m =>
    obtain ⟨hev, _⟩ := startDeployment_err_shape fd did env u m hm
    rw [hev]
    have hplain := h2 (by simp [hm])
    have hcl := cleanupTrace_plain env (tryBody fd did env).appName
    simp [List.countP_append, countP_complete_eq_zero_of_plain _ hplain,
      countP_complete_eq_zero_of_plain _ hcl, List.countP_cons, terminalEvent]

theorem deliverFrom_countP_le (ops : List ChannelOp) (b : Bool) :
    (deliverFrom b ops).countP (fun e => e.isComplete) ≤
      (publishTrace ops).countP (fun e => e.isComplete) := by
  induction ops generalizing b with
  | nil => simp [deliverFrom, publishTrace]
  | cons op rest ih =>
    cases op with
    | connect =>
      simp only [deliverFrom, publishTrace, List.countP_cons]
      simpa [initialEvent] using ih true
    | disconnect =>
      simpa only [deliverFrom, publishTrace] using ih false
    | publish e =>
      simp only [deliverFrom, publishTrace]
      by_cases hb : b
      · rw [if_pos hb]
        simp only [List.countP_cons]
        exact Nat.add_le_add_right (ih _) _
      · rw [if_neg hb]
        simp only [List.countP_cons]
        exact Nat.le_trans (ih b) (Nat.le_add_right _ _)

theorem deliverFrom_false_publishes (es : List Event) :
    deliverFrom false (es.map ChannelOp.publish) = [] := by
  induction es with
  | nil => rfl
  | cons e tl ih => simpa [deliverFrom] using ih

theorem deliverFrom_publish_plain (es : List Event) (rest : List ChannelOp)
    (h : es.all plainEvent = true) :
    deliverFrom true (es.map ChannelOp.publish ++ rest) = es ++ deliverFrom true rest := by
  induction es with
  | nil => rfl
  | cons e tl ih =>
    simp only [List.all_cons, Bool.and_eq_true] at h
    have hc : e.isComplete = false := by
      have := h.1
      simp only [plainEvent, Bool.and_eq_true, Bool.not_eq_true'] at this
      exact this.1
    simp [deliverFrom, hc, ih h.2]

/-- Four decimal digits at the head of the character list. -/
def fourDigitsAt (cs : List Char) : Bool :=
  ((cs.take 4).length == 4) && (cs.take 4).all Char.isDigit

/-- Match a literal character sequence at the head, returning the remaining
characters on success. -/
def litMatchAt : List Char → List Char → Option (List Char)
  | [], rest => some rest
  | _ :: _, [] => none
  | l :: ls, c :: cs => if l == c then litMatchAt ls cs else none

/-- Unanchored search: does the literal occur anywhere in the list,
immediately followed by four decimal digits? Models a JavaScript regex test
of the pattern `<literal>` followed by four digit characters. -/
def searchLitFourDigits (litc : List Char) : List Char → Bool
  | [] =>
    (match litMatchAt litc [] with
     | some rest => fourDigitsAt rest
     | none => false)
  | c :: tl =>
    (match litMatchAt litc (c :: tl) with
     | some rest => fourDigitsAt rest
     | none => false) || searchLitFourDigits litc tl

/-- String-level wrapper for the unanchored literal-plus-four-digits test. -/
def matchesLitFourDigits (lit s : String) : Bool :=
  searchLitFourDigits lit.data s.data

/-- Whether a file at `path` exists after replaying the filesystem
operations of a run (starting from a state where it does not exist):
a successful write creates it, a successful unlink removes it, failed
operations leave it unchanged. -/
def fileAfter (ops : List FsOp) (path : String) : Bool :=
  ops.foldl
    (fun present op =>
      match op with
      | .write p ok => if (p == path) && ok then true else present
      | .unlink p ok => if (p == path) && ok then false else present)
    false

/-- A sample request: organisation `acme`, secret `k`. -/
def fdEx : FormData := ⟨"acme", "k"⟩

/-- Environment in which `HUMANITEC_SERVICE_USER_API_TOKEN` is unset: the
run throws before any external command is issued. All other outcomes are
benign and never reached. -/
def envNoToken : DeployEnv :=
  ⟨none, none, none, none, 0, .created "u1", .issued "tok1", .exited [] [] 0,
   fun _ => .exited [] [] 0, none, .exited [] [] 0, .exited [] [] 0⟩

/-- Environment in which every step succeeds until the `flyctl deploy`
command exits with code 1 (stderr `boom`): a fatal failure after the
application was created. -/
def envDeployFail : DeployEnv :=
  ⟨some "admintok", none, none, none, 0, .created "u1", .issued "tok1", .exited [] [] 0,
   fun _ => .exited [] [] 0, none, .exited [] ["boom"] 1, .exited [] [] 0⟩

/-- Environment in which every step succeeds. -/
def envAllOk : DeployEnv :=
  ⟨some "admintok", none, none, none, 0, .created "u1", .issued "tok1", .exited [] [] 0,
   fun _ => .exited [] [] 0, none, .exited [] [] 0, .exited [] [] 0⟩

/-- C7 (confirmed): the command execution wrapper resolves with the
accumulated stdout, stderr and exit code on a zero exit; on a non-zero exit
it rejects with a message that is exactly the command string, exit code and
captured stderr text (or `None` when stderr is empty) in the source's
format; a launch failure rejects with the distinct `Failed to start command`
message, and no launch-failure message ever coincides with a non-zero-exit
message. -/
theorem c7_run_command_contract (command : String) (args : List String)
    (outs errs : List String) (code : Int) (msg : String) :
    ((runCommandModel command args (ProcOutcome.exited outs errs 0)).2 =
      Except.ok ⟨(chunkEvents "[stdout] " outs).2, (chunkEvents "[stderr] " errs).2, 0⟩) ∧
    (code ≠ 0 →
      (runCommandModel command args (ProcOutcome.exited outs errs code)).2 =
        Except.error ("Command \x22" ++ cmdString command args ++ "\x22 failed with exit code " ++
          toString code ++ ". Stderr: " ++
          (if (chunkEvents "[stderr] " errs).2 = "" then "None" else (chunkEvents "[stderr] " errs).2))) ∧
    ((runCommandModel command args (ProcOutcome.launchFailure msg)).2 =
      Except.error ("Failed to start command \x22" ++ cmdString command args ++ "\x22: " ++ msg)) ∧
    (∀ a b : String, ("Failed to start command \x22" ++ a) ≠ ("Command \x22" ++ b)) := by
  refine ⟨by simp [runCommandModel], ?_, rfl, ?_⟩
  · intro hc
    simp [runCommandModel, hc]
  · intro a b h
    have h2 := congrArg String.data h
    rw [String.data_append, String.data_append] at h2
    have e1 : ("Failed to start command \x22" : String).data
        = 'F' :: ("ailed to start command \x22" : String).data := rfl
    have e2 : ("Command \x22" : String).data = 'C' :: ("ommand \x22" : String).data := rfl
    rw [e1, e2, List.cons_append, List.cons_append] at h2
    injection h2 with hc _
    exact absurd hc (by decide)

/-- Witness for C7 at concrete inputs: a run with exit code 1 and empty
stderr rejects with the exact formatted message. -/
theorem c7_witness :
    (1 : Int) ≠ 0 ∧
    (runCommandModel "flyctl" ["apps", "list"] (ProcOutcome.exited ["ok"] [] 1)).2 =
      Except.error ("Command \x22" ++ cmdString "flyctl" ["apps", "list"] ++
        "\x22 failed with exit code " ++ toString (1 : Int) ++ ". Stderr: " ++
        (if (chunkEvents "[stderr] " ([] : List String)).2 = "" then "None"
         else (chunkEvents "[stderr] " ([] : List String)).2)) :=
  ⟨by decide, (c7_run_command_contract "flyctl" ["apps", "list"] ["ok"] [] 1 "m").2.1 (by decide)⟩

/-- C10 (confirmed): the per-chunk stream handler emits a progress event if
and only if the whitespace-trimmed chunk text is non-empty; what it emits is
the trimmed text tagged by stream of origin, and what it accumulates is the
trimmed text plus a single newline — whitespace-only chunks produce nothing
and chunk-edge whitespace is never preserved. -/
theorem c10_chunk_processing (tag chunk : String) :
    (trimChunk chunk = "" → processChunk tag chunk = none) ∧
    (trimChunk chunk ≠ "" →
      processChunk tag chunk =
        some (⟨tag ++ trimChunk chunk, false, false, none⟩, trimChunk chunk ++ "\n")) := by
  constructor
  · intro h
    simp [processChunk, h]
  · intro h
    simp [processChunk, h, info]

/-- Witness for C10 at concrete chunks: a chunk with edge whitespace is
trimmed and tagged; a whitespace-only chunk is dropped. -/
theorem c10_witness :
    processChunk "[stdout] " "  hello \n" =
      some (⟨"[stdout] " ++ trimChunk "  hello \n", false, false, none⟩, trimChunk "  hello \n" ++ "\n") ∧
    processChunk "[stderr] " " \n " = none :=
  ⟨(c10_chunk_processing "[stdout] " "  hello \n").2 (by decide),
   (c10_chunk_processing "[stderr] " " \n ").1 (by decide)⟩

/-- C4 counterexample: for the organisation name `Acme Inc!` the derived
application name is `acme-inc--1234` (for suffix draw 1234): sanitisation
maps the trailing `!` to a hyphen and the template adds another, so the name
does NOT match the claimed pattern `acme-inc-` followed by four digits —
the double hyphen breaks it. -/
theorem c4_counterexample :
    uniqueAppName "Acme Inc!" 234 = "acme-inc--1234" ∧
    matchesLitFourDigits "acme-inc-" (uniqueAppName "Acme Inc!" 234) = false := by decide

/-- C4 (corrected): the derived name is the sanitised organisation name, a
hyphen, and a 4-digit suffix (a number in 1000..9999); for `Acme Inc!` the
sanitised part is `acme-inc-` (trailing hyphen from `!`), so the name is
`acme-inc--` followed by the 4-digit suffix — pattern `acme-inc--\d[4]`,
not `acme-inc-\d[4]`; the total length is at most 45 characters (40-bounded
sanitised part + hyphen + 4 digits). -/
theorem c4_name_shape (orgName : String) (k : Nat) :
    (uniqueAppName orgName k).length ≤ 45 ∧
    1000 ≤ randomSuffix k ∧ randomSuffix k ≤ 9999 ∧
    sanitizeOrg "Acme Inc!" = "acme-inc-" ∧
    uniqueAppName "Acme Inc!" k = "acme-inc--" ++ Nat.repr (randomSuffix k) := by
  have hmod : k % 9000 < 9000 := Nat.mod_lt k (by norm_num)
  have hs1 : 1000 ≤ randomSuffix k := by unfold randomSuffix; omega
  have hs2 : randomSuffix k ≤ 9999 := by unfold randomSuffix; omega
  refine ⟨?_, hs1, hs2, by decide, ?_⟩
  · have h1 : (sanitizeOrg orgName).length ≤ 40 := by
      simp only [sanitizeOrg, String.length_mk, List.length_take]
      exact min_le_left _ _
    have h2 : (Nat.repr (randomSuffix k)).length ≤ 4 :=
      Nat.repr_length _ 4 (by norm_num) (by norm_num; omega)
    have hm : ("-" : String).length = 1 := rfl
    calc (uniqueAppName orgName k).length
        = (sanitizeOrg orgName).length + 1 + (Nat.repr (randomSuffix k)).length := by
          simp [uniqueAppName, String.length_append, hm]
      _ ≤ 45 := by omega
  · have hsan : sanitizeOrg "Acme Inc!" = "acme-inc-" := by decide
    have happ : ("acme-inc-" ++ "-" : String) = "acme-inc--" := by decide
    rw [uniqueAppName, hsan, happ]

/-- C5 counterexample: subscribing to the progress stream for an identifier
with which no orchestration is associated neither fails nor yields a
terminal state — the handler registers the caller as the live subscriber
and sends a non-terminal, non-error greeting. -/
theorem c5_counterexample :
    statusEndpoint "no-such-deployment" none "client1" =
      ⟨200, some "client1", [initialEvent]⟩ ∧
    initialEvent.isComplete = false ∧ initialEvent.isError = false := by decide

/-- C5 (corrected): for every non-empty identifier — whether or not any
orchestration is associated with it — the status endpoint succeeds,
registers the caller as the sole subscriber (overwriting any previous one)
and sends the non-terminal greeting; it never consults a record of
orchestrations. -/
theorem c5_subscribe_always_registers (deploymentId : String) (reg : Option String) (client : String)
    (h : deploymentId ≠ "") :
    statusEndpoint deploymentId reg client = ⟨200, some client, [initialEvent]⟩ ∧
    initialEvent.isComplete = false := by
  unfold statusEndpoint
  rw [if_neg h]
  exact ⟨rfl, rfl⟩

/-- Witness for C5 at a concrete unassociated identifier. -/
theorem c5_witness :
    statusEndpoint "dep-without-orchestration" none "client1" = ⟨200, some "client1", [initialEvent]⟩ ∧
    initialEvent.isComplete = false :=
  c5_subscribe_always_registers "dep-without-orchestration" none "client1" (by decide)

/-- C6 counterexample: a whitespace-only organisation name is blank after
trimming, yet the deploy endpoint accepts the request (status 202) and
starts the orchestration — validation uses JavaScript truthiness, not
trimming. -/
theorem c6_counterexample :
    trimChunk " " = "" ∧
    deployEndpoint ⟨some " ", some "k"⟩ none = ⟨202, true, none⟩ := by decide

/-- C6 (corrected): the deploy endpoint starts the orchestration exactly
when both fields are present and non-empty as raw strings (JavaScript
truthiness) — whitespace-only fields are accepted; when validation fails it
answers 400 and starts nothing; the endpoint never touches the subscriber
registry either way. -/
theorem c6_truthiness_validation (b : DeployBody) (reg : Option String) :
    (deployEndpoint b reg).started = (truthyField b.orgName && truthyField b.geminiKey) ∧
    (deployEndpoint b reg).status =
      (if truthyField b.orgName && truthyField b.geminiKey then 202 else 400) ∧
    (deployEndpoint b reg).registered = reg := by
  unfold deployEndpoint
  by_cases h1 : truthyField b.orgName <;> by_cases h2 : truthyField b.geminiKey <;>
    simp [h1, h2]

/-- C1 counterexample: with the admin token missing, the run fails during
identity provisioning — before any remote-application creation command was
even issued (no create command appears in the trace) — yet exactly one
application-destroy command is issued, because the app name is recorded at
name-generation time, not at creation time. -/
theorem c1_counterexample :
    (startDeployment fdEx "dep1" envNoToken true).cmds.countP (fun c => isDestroyCmd c) = 1 ∧
    (startDeployment fdEx "dep1" envNoToken true).cmds.countP (fun c => isCreateCmd c) = 0 := by
  decide

/-- C1 (corrected): an application-destroy command is issued if and only if
the run throws a fatal error anywhere — including during identity
provisioning, credential issuance, or the creation command itself — because
the derived name is recorded before any fallible step; in that case exactly
one destroy command is issued and it uses the derived application name;
only a fully successful run issues no destroy command. -/
theorem c1_destroy_iff_fatal (fd : FormData) (did : String) (env : DeployEnv) (u : Bool) :
    ((tryBody fd did env).err = none →
      (startDeployment fd did env u).cmds.countP (fun c => isDestroyCmd c) = 0) ∧
    (∀ m, (tryBody fd did env).err = some m →
      (startDeployment fd did env u).cmds.countP (fun c => isDestroyCmd c) = 1 ∧
      (⟨"flyctl", ["apps", "destroy", uniqueAppName fd.orgName env.randomK, "--yes"]⟩ : Cmd) ∈
        (startDeployment fd did env u).cmds) := by
  obtain ⟨h1, _, _, h4, _⟩ := tryBody_master fd did env
  constructor
  · intro hm
    rw [(startDeployment_ok_shape fd did env u hm).2]
    exact h4
  · intro m hm
    obtain ⟨_, hc⟩ := startDeployment_err_shape fd did env u m hm
    rw [hc]
    constructor
    · simp [List.countP_append, h4, List.countP_cons, isDestroyCmd_destroy]
    · rw [← h1]
      exact List.mem_append_right _ (List.mem_singleton_self _)

/-- Witness for C1 at a concrete failing run (missing admin token): one
destroy command, carrying the derived name. -/
theorem c1_witness :
    (tryBody fdEx "dep1" envNoToken).err =
      some "Missing HUMANITEC_SERVICE_USER_API_TOKEN in environment variables." ∧
    ((startDeployment fdEx "dep1" envNoToken true).cmds.countP (fun c => isDestroyCmd c) = 1 ∧
     (⟨"flyctl", ["apps", "destroy", uniqueAppName fdEx.orgName envNoToken.randomK, "--yes"]⟩ : Cmd) ∈
       (startDeployment fdEx "dep1" envNoToken true).cmds) :=
  ⟨by decide,
   (c1_destroy_iff_fatal fdEx "dep1" envNoToken true).2
     "Missing HUMANITEC_SERVICE_USER_API_TOKEN in environment variables." (by decide)⟩

/-- C2 counterexample: in a run that fails fatally after the application was
created (creation command issued and succeeded, deploy command failed), the
events published after the first `isComplete=true` event form a non-empty
tail (the cleanup events come after it) and the last published event is not
the terminal one — the terminal completion event precedes the cleanup
events instead of following them. -/
theorem c2_counterexample :
    ((startDeployment fdEx "dep1" envDeployFail true).events.dropWhile (fun e => !e.isComplete)).length > 1 ∧
    ((startDeployment fdEx "dep1" envDeployFail true).events.getLast?.map (fun e => e.isComplete)) =
      some false ∧
    (tryBody fdEx "dep1" envDeployFail).err.isSome = true ∧
    (startDeployment fdEx "dep1" envDeployFail true).cmds.countP (fun c => isCreateCmd c) = 1 := by
  decide

/-- C2 (corrected): on any fatal error the orchestrator publishes a single
event that both describes the failure and carries the completion flag
(`isError=true, isComplete=true`) BEFORE the cleanup attempt; the cleanup
progress events are published after it and never complete the stream; and
because the channel closes on the completion flag, a subscriber connected
from the start receives the failure event last and none of the cleanup
events. -/
theorem c2_terminal_precedes_cleanup (fd : FormData) (did : String) (env : DeployEnv) (u : Bool)
    (m : String) (hm : (tryBody fd did env).err = some m) :
    (startDeployment fd did env u).events =
      (tryBody fd did env).events ++ [terminalEvent m] ++
        (cleanupTrace env (tryBody fd did env).appName).1 ∧
    (terminalEvent m).isError = true ∧
    (terminalEvent m).isComplete = true ∧
    ((tryBody fd did env).events).all plainEvent = true ∧
    ((cleanupTrace env (tryBody fd did env).appName).1).all plainEvent = true ∧
    deliveredList (ChannelOp.connect :: ((startDeployment fd did env u).events).map ChannelOp.publish) =
      initialEvent :: ((tryBody fd did env).events ++ [terminalEvent m]) := by
  obtain ⟨h1, h2, _, _, _⟩ := tryBody_master fd did env
  have hplain := h2 (by simp [hm])
  obtain ⟨hev, _⟩ := startDeployment_err_shape fd did env u m hm
  have hcl := cleanupTrace_plain env (tryBody fd did env).appName
  refine ⟨hev, rfl, rfl, hplain, hcl, ?_⟩
  rw [hev]
  have hstep : deliveredList (ChannelOp.connect ::
      (((tryBody fd did env).events ++ [terminalEvent m] ++
        (cleanupTrace env (tryBody fd did env).appName).1).map ChannelOp.publish)) =
      initialEvent :: deliverFrom true
        (((tryBody fd did env).events ++ [terminalEvent m] ++
          (cleanupTrace env (tryBody fd did env).appName).1).map ChannelOp.publish) := rfl
  rw [hstep, List.append_assoc, List.map_append]
  rw [deliverFrom_publish_plain _ _ hplain]
  simp [deliverFrom, terminalEvent, deliverFrom_false_publishes]

set_option maxRecDepth 10000 in
/-- Witness for C2 at the concrete deploy-failure run. -/
theorem c2_witness :
    (tryBody fdEx "dep1" envDeployFail).err =
      some ("Command \x22flyctl deploy -a acme-1000 -c /tmp/fly_dep1_acme-1000.toml --image dominicwhitehumanitec/canyonchat:latest --ha=false --detach\x22 failed with exit code 1. Stderr: boom\n") ∧
    ((startDeployment fdEx "dep1" envDeployFail true).events =
      (tryBody fdEx "dep1" envDeployFail).events ++
        [terminalEvent ("Command \x22flyctl deploy -a acme-1000 -c /tmp/fly_dep1_acme-1000.toml --image dominicwhitehumanitec/canyonchat:latest --ha=false --detach\x22 failed with exit code 1. Stderr: boom\n")] ++
        (cleanupTrace envDeployFail (tryBody fdEx "dep1" envDeployFail).appName).1 ∧
     (terminalEvent ("Command \x22flyctl deploy -a acme-1000 -c /tmp/fly_dep1_acme-1000.toml --image dominicwhitehumanitec/canyonchat:latest --ha=false --detach\x22 failed with exit code 1. Stderr: boom\n")).isError = true ∧
     (terminalEvent ("Command \x22flyctl deploy -a acme-1000 -c /tmp/fly_dep1_acme-1000.toml --image dominicwhitehumanitec/canyonchat:latest --ha=false --detach\x22 failed with exit code 1. Stderr: boom\n")).isComplete = true ∧
     ((tryBody fdEx "dep1" envDeployFail).events).all plainEvent = true ∧
     ((cleanupTrace envDeployFail (tryBody fdEx "dep1" envDeployFail).appName).1).all plainEvent = true ∧
     deliveredList (ChannelOp.connect :: ((startDeployment fdEx "dep1" envDeployFail true).events).map ChannelOp.publish) =
       initialEvent :: ((tryBody fdEx "dep1" envDeployFail).events ++
         [terminalEvent ("Command \x22flyctl deploy -a acme-1000 -c /tmp/fly_dep1_acme-1000.toml --image dominicwhitehumanitec/canyonchat:latest --ha=false --detach\x22 failed with exit code 1. Stderr: boom\n")])) :=
  ⟨by decide,
   c2_terminal_precedes_cleanup fdEx "dep1" envDeployFail true
     ("Command \x22flyctl deploy -a acme-1000 -c /tmp/fly_dep1_acme-1000.toml --image dominicwhitehumanitec/canyonchat:latest --ha=false --detach\x22 failed with exit code 1. Stderr: boom\n")
     (by decide)⟩

/-- The channel-operation sequence of the C3 scenario: a subscriber connects,
the run (missing admin token) publishes its events; right after the terminal
event (the fourth event) the subscriber reconnects, and the remaining
(cleanup) events are published. -/
def opsEx : List ChannelOp :=
  [ChannelOp.connect] ++
    ((startDeployment fdEx "dep1" envNoToken true).events.take 4).map ChannelOp.publish ++
  [ChannelOp.connect] ++
    ((startDeployment fdEx "dep1" envNoToken true).events.drop 4).map ChannelOp.publish

/-- C3 counterexample: the operations of `opsEx` publish exactly the events
of a real run, in order; yet after the `isComplete=true` event has been
delivered, further events are still delivered — the status endpoint
re-registers a reconnecting subscriber unconditionally, so the cleanup
events (and a fresh greeting) reach it after the terminal event. -/
theorem c3_counterexample :
    publishTrace opsEx = (startDeployment fdEx "dep1" envNoToken true).events ∧
    ((deliveredList opsEx).dropWhile (fun e => !e.isComplete)).length > 1 := by
  decide

/-- C3 (corrected): at most one `isComplete=true` event is ever delivered
per identifier — the run publishes exactly one, and connects only add
non-terminal greetings — but delivery does NOT stop after it: a subscriber
that reconnects is re-registered and receives subsequent events. -/
theorem c3_at_most_one_complete_delivered (fd : FormData) (did : String) (env : DeployEnv)
    (u : Bool) (ops : List ChannelOp)
    (h : publishTrace ops = (startDeployment fd did env u).events) :
    (deliveredList ops).countP (fun e => e.isComplete) ≤ 1 := by
  have hle := deliverFrom_countP_le ops false
  rw [h, startDeployment_one_complete fd did env u] at hle
  exact hle

/-- Witness for C3 at the concrete reconnect scenario. -/
theorem c3_witness :
    publishTrace opsEx = (startDeployment fdEx "dep1" envNoToken true).events ∧
    (deliveredList opsEx).countP (fun e => e.isComplete) ≤ 1 :=
  ⟨by decide, c3_at_most_one_complete_delivered fdEx "dep1" envNoToken true opsEx (by decide)⟩

/-- C8 (confirmed): whenever the temp descriptor path was recorded, the
run's filesystem trace ends with the unconditional `finally`-block unlink of
exactly that path; when the unlink succeeds the file is absent afterwards
whatever else happened; and neither the published events nor the issued
commands depend on the unlink outcome — a deletion failure is never
surfaced to the subscriber and never changes the run's outcome. -/
theorem c8_temp_file_cleanup (fd : FormData) (did : String) (env : DeployEnv) (u : Bool) :
    ((tryBody fd did env).tomlPath ≠ "" →
      (startDeployment fd did env u).fsOps =
        (tryBody fd did env).fsOps ++ [FsOp.unlink (tryBody fd did env).tomlPath u]) ∧
    fileAfter (startDeployment fd did env true).fsOps (tryBody fd did env).tomlPath = false ∧
    (startDeployment fd did env u).events = (startDeployment fd did env true).events ∧
    (startDeployment fd did env u).cmds = (startDeployment fd did env true).cmds := by
  have hfs : ∀ v : Bool, (startDeployment fd did env v).fsOps =
      (if (tryBody fd did env).tomlPath = "" then (tryBody fd did env).fsOps
       else (tryBody fd did env).fsOps ++ [FsOp.unlink (tryBody fd did env).tomlPath v]) :=
    fun v => rfl
  obtain ⟨_, _, _, _, h5⟩ := tryBody_master fd did env
  refine ⟨?_, ?_, rfl, rfl⟩
  · intro hp
    rw [hfs u, if_neg hp]
  · rcases h5 with ⟨hp0, hf0⟩ | ⟨hp0, b, hf0⟩
    · rw [hfs true, if_pos hp0, hf0]
      rfl
    · rw [hfs true, if_neg hp0, hf0]
      cases b <;> simp [fileAfter]

/-- Witness for C8 at the fully successful concrete run: the write of the
temp file is followed by its unlink, and the file is absent afterwards. -/
theorem c8_witness :
    ((tryBody fdEx "dep1" envAllOk).tomlPath ≠ "" →
      (startDeployment fdEx "dep1" envAllOk false).fsOps =
        (tryBody fdEx "dep1" envAllOk).fsOps ++
          [FsOp.unlink (tryBody fdEx "dep1" envAllOk).tomlPath false]) ∧
    (tryBody fdEx "dep1" envAllOk).tomlPath ≠ "" ∧
    fileAfter (startDeployment fdEx "dep1" envAllOk true).fsOps (tryBody fdEx "dep1" envAllOk).tomlPath = false :=
  ⟨(c8_temp_file_cleanup fdEx "dep1" envAllOk false).1, by decide,
   (c8_temp_file_cleanup fdEx "dep1" envAllOk false).2.1⟩

/-- C9 (confirmed): a run whose `try` block completes without an error ends
its published events in exactly one final event with `isComplete=true`,
`isError=false` and a structured payload whose URL is
`https://` + derived name + `.canyon-beta.com`; every earlier event of the
run is completion-free and carries no data payload. -/
theorem c9_success_final_event (fd : FormData) (did : String) (env : DeployEnv) (u : Bool)
    (hm : (tryBody fd did env).err = none) :
    ∃ ds, (startDeployment fd did env u).events =
        ds ++ [successEvent (uniqueAppName fd.orgName env.randomK)] ∧
      ds.all plainEvent = true ∧
      ds.all (fun e => e.data == none) = true ∧
      successEvent (uniqueAppName fd.orgName env.randomK) =
        ⟨"Deployment successful! App should be available shortly at: https://" ++
            uniqueAppName fd.orgName env.randomK ++ ".canyon-beta.com",
          false, true,
          some ("https://" ++ uniqueAppName fd.orgName env.randomK ++ ".canyon-beta.com")⟩ := by
  obtain ⟨h1, _, h3, _, _⟩ := tryBody_master fd did env
  obtain ⟨ds, hds, hp⟩ := h3 hm
  refine ⟨ds, ?_, hp, ?_, ?_⟩
  · rw [(startDeployment_ok_shape fd did env u hm).1, hds]
  · refine List.all_eq_true.mpr ?_
    intro e he
    have hpe := List.all_eq_true.mp hp e he
    simp only [plainEvent, Bool.and_eq_true] at hpe
    exact hpe.2
  · simp [successEvent]

/-- Witness for C9 at the fully successful concrete run. -/
theorem c9_witness :
    (tryBody fdEx "dep1" envAllOk).err = none ∧
    (∃ ds, (startDeployment fdEx "dep1" envAllOk true).events =
        ds ++ [successEvent (uniqueAppName fdEx.orgName envAllOk.randomK)] ∧
      ds.all plainEvent = true ∧
      ds.all (fun e => e.data == none) = true ∧
      successEvent (uniqueAppName fdEx.orgName envAllOk.randomK) =
        ⟨"Deployment successful! App should be available shortly at: https://" ++
            uniqueAppName fdEx.orgName envAllOk.randomK ++ ".canyon-beta.com",
          false, true,
          some ("https://" ++ uniqueAppName fdEx.orgName envAllOk.randomK ++ ".canyon-beta.com")⟩) :=
  ⟨by decide, c9_success_final_event fdEx "dep1" envAllOk true (by decide)⟩
